import Mathlib

/-!
Shallow embedding of the event bus and fixed-timestep scheduler of the
`engine` crate (src/engine/src/events.rs, src/engine/src/core.rs,
src/engine/src/lib.rs).  Durations are modelled as natural numbers of
nanoseconds, mirroring Rust `std::time::Duration` exactly; queues are
modelled as lists (head = oldest pending event).
-/

/-- Embeds `enum Priority { High, Normal, Low }` from events.rs
(declaration order preserved). -/
inductive Priority where
  | High : Priority
  | Normal : Priority
  | Low : Priority
deriving DecidableEq, Repr

/-- Discriminant of a `Priority` variant in declaration order; Rust's
derived `Ord` on a fieldless enum compares discriminants. -/
def Priority.idx : Priority → Nat
  | .High => 0
  | .Normal => 1
  | .Low => 2

/-- Embeds the derived `Ord::cmp` on `Priority` (events.rs line 7):
compare by declaration-order discriminant. -/
def Priority.cmp (a b : Priority) : Ordering :=
  compare a.idx b.idx

/-- Embeds `enum LogLevel { Info, Warning, Error }` from events.rs. -/
inductive LogLevel where
  | Info : LogLevel
  | Warning : LogLevel
  | Error : LogLevel
deriving DecidableEq, Repr

/-- Embeds `model::Position` (`MapPosition { x: i32, y: i32 }` from
model/src/map.rs); i32 values modelled as integers. -/
structure Position where
  x : Int
  y : Int
deriving DecidableEq, Repr

/-- Embeds `enum GameEvent` from events.rs.  The f32/f64 payloads are
never computed with by the bus or the loop, only carried; they are
modelled as rationals. -/
inductive GameEvent where
  | Start : GameEvent
  | Stop : GameEvent
  | Pause : GameEvent
  | Resume : GameEvent
  | Update (delta : Rat) : GameEvent
  | TurnStart (factionId : Nat) : GameEvent
  | TurnEnd (factionId : Nat) : GameEvent
  | UnitMove (unitId : Nat) (position : Position) : GameEvent
  | Log (message : String) (level : LogLevel) : GameEvent
  | Stats (metric : String) (value : Rat) : GameEvent
deriving DecidableEq, Repr

/-- Embeds `GameEvent::default_priority` (events.rs lines 62-78). -/
def GameEvent.default_priority : GameEvent → Priority
  | .Start | .Stop | .Pause | .Resume => .High
  | .Update _ | .TurnStart _ | .TurnEnd _ | .UnitMove _ _ => .Normal
  | .Log _ _ | .Stats _ _ => .Low

/-- Embeds `struct PrioritizedEvent { priority, event }` from events.rs. -/
structure PrioritizedEvent where
  priority : Priority
  event : GameEvent
deriving DecidableEq, Repr

/-- A subscriber-side queue of the bus: one `crossbeam_channel` sender
kept in the registry.  `closed` is true when the receiving end has been
dropped, in which case `send` fails with a `SendError`; otherwise the
event is appended (the channel is FIFO; the bound of 100 only makes the
sender block, never fail, so the queue content is modelled unbounded). -/
structure Subscriber where
  closed : Bool
  queue : List PrioritizedEvent
deriving DecidableEq, Repr

/-- The topic registry of `EventBus` (events.rs line 83): a map from
topic name to the ordered vector of subscriber senders, modelled as an
association list with at most one entry per key (as in `HashMap`). -/
abbrev EventBus : Type := List (String × List Subscriber)

/-- Embeds `HashMap::get` on the registry: value of the first entry
whose key matches. -/
def busLookup : EventBus → String → Option (List Subscriber)
  | [], _ => none
  | (k, v) :: rest, t => if k = t then some v else busLookup rest t

/-- Writes back a topic's subscriber vector (in Rust the vector is
mutated in place inside the map); replaces the first matching entry. -/
def busUpdate : EventBus → String → List Subscriber → EventBus
  | [], _, _ => []
  | (k, v) :: rest, t, subs =>
    if k = t then (k, subs) :: rest else (k, v) :: busUpdate rest t subs

/-- Embeds the fan-out loop of `publish_with_priority` (events.rs lines
119-121): `for sender in event_senders { sender.send(ev.clone())?; }`.
The `?` returns at the first failing send, so sends already performed
stick, the failing subscriber and all later ones are left untouched, and
the returned flag records whether a `SendError` was propagated. -/
def sendAll (pe : PrioritizedEvent) : List Subscriber → List Subscriber × Bool
  | [] => ([], false)
  | s :: rest =>
    if s.closed then (s :: rest, true)
    else
      let r := sendAll pe rest
      ({ s with queue := s.queue ++ [pe] } :: r.1, r.2)

/-- Embeds `EventBus::publish_with_priority` (events.rs lines 108-124):
resolve the priority (explicit override, else the event's default),
wrap as a `PrioritizedEvent`, and send to every sender registered for
the topic; a missing topic entry is a silent no-op success.  The `Bool`
is `true` exactly when the Rust call returns `Err` (a send failed). -/
def publish_with_priority (bus : EventBus) (event_type : String)
    (event : GameEvent) (priority : Option Priority) : EventBus × Bool :=
  let p := priority.getD event.default_priority
  let pe : PrioritizedEvent := ⟨p, event⟩
  match busLookup bus event_type with
  | none => (bus, false)
  | some subs =>
    let r := sendAll pe subs
    (busUpdate bus event_type r.1, r.2)

/-- Embeds `EventBus::publish` (events.rs lines 103-105): publish with
the default priority. -/
def publish (bus : EventBus) (event_type : String) (event : GameEvent) :
    EventBus × Bool :=
  publish_with_priority bus event_type event none

/-- Embeds `EventBus::subscribe` (events.rs lines 92-100): push a fresh
live sender onto the topic's vector, creating the entry on first use
(`entry(..).or_default().push(sender)`). -/
def subscribe (bus : EventBus) (event_type : String) : EventBus :=
  match busLookup bus event_type with
  | none => bus ++ [(event_type, [⟨false, []⟩])]
  | some subs => busUpdate bus event_type (subs ++ [⟨false, []⟩])

/-- One second in nanoseconds, the granularity of `std::time::Duration`. -/
def nanosPerSec : Nat := 1000000000

/-- Embeds `Duration::from_secs(1) / max_updates` (core.rs line 73).
Rust's `Duration` division computes `(secs / k, (secs % k) * 1e9 / k +
nanos / k + ...)`, which on totals equals truncating division of the
nanosecond count. -/
def oneSecDivNs (maxUpdates : Nat) : Nat :=
  nanosPerSec / maxUpdates

/-- The IEEE-754 binary64 significand of `1.0 / 60.0`: the double
computed by Rust at core.rs line 36 for `target_fps = 60` is exactly
`f64SigSixtieth * 2 ^ (-58)` (see `f64SigSixtieth_nearest`). -/
def f64SigSixtieth : Nat := 4803839602528529

/-- Round `num / den` to the nearest natural, ties to even, as
`Duration::from_secs_f64` does when converting the fractional seconds
to nanoseconds. -/
def roundNearestEven (num den : Nat) : Nat :=
  let q := num / den
  let r := num % den
  if den < 2 * r then q + 1
  else if 2 * r < den then q
  else if q % 2 = 0 then q else q + 1

/-- Embeds `Duration::from_secs_f64(1.0 / 60.0)` (core.rs line 36 with
the default `target_fps = 60`): the double `1.0 / 60.0` equals
`f64SigSixtieth / 2 ^ 58`, and `from_secs_f64` rounds it to the nearest
nanosecond, ties to even. -/
def frameDurationNs60 : Nat :=
  roundNearestEven (f64SigSixtieth * nanosPerSec) (2 ^ 58)

/-- Embeds the `try_recv` drain of `GameLoop::update` (core.rs lines
88-119): pop events until the queue is empty, except that a `Stop`
carrying `High` priority makes `update` return at once (the `Stop`
itself consumed, everything behind it left queued).  All other arms
only log, so the queue is the whole state; `update` never errors. -/
def drainUpdate : List PrioritizedEvent → List PrioritizedEvent
  | [] => []
  | e :: rest =>
    if e.event = GameEvent.Stop ∧ e.priority = Priority.High then rest
    else drainUpdate rest

/-- The body of the fixed-step loop of `GameLoop::process_frame`
(core.rs lines 76-79): `while accumulated_time >= frame_duration {
update()?; accumulated_time -= frame_duration; }`, with an explicit
iteration budget for structural recursion.  Each pass checks
`fd ≤ acc`, calls `update` (draining the queue) and subtracts `fd`. -/
def updateLoopAux (fd : Nat) :
    Nat → Nat → List PrioritizedEvent → Nat × List PrioritizedEvent × Nat
  | 0, acc, q => (acc, q, 0)
  | fuel + 1, acc, q =>
    if fd ≤ acc then
      let r := updateLoopAux fd fuel (acc - fd) (drainUpdate q)
      (r.1, r.2.1, r.2.2 + 1)
    else (acc, q, 0)

/-- Embeds the fixed-step loop of `GameLoop::process_frame` (core.rs
lines 76-79).  Returns the final accumulator, the queue left after the
`update` calls, and how many times `update` ran.  The budget `acc / fd`
is exactly the number of iterations of the source loop, so it is never
exhausted early (`updateLoop_recurrence` shows this definition
satisfies the loop's recurrence).  The source loop diverges when
`frame_duration = 0`; `LoopConfig` rules that out, and the model is
faithful for `0 < fd`. -/
def updateLoop (fd : Nat) (acc : Nat) (q : List PrioritizedEvent) :
    Nat × List PrioritizedEvent × Nat :=
  updateLoopAux fd (acc / fd) acc q

/-- Embeds `GameLoop::render` (core.rs lines 122-125): a stub that
returns `Ok(())`. -/
def render : Except String Unit := .ok ()

/-- Embeds `GameLoop::process_frame` (core.rs lines 67-85) for a loop
with frame duration `fd` and config `max_updates = mu`, given the
wall-clock gap `ft` since `last_update` (nanoseconds), the accumulator
`acc` and the pending queue `q`: clamp the gap to `1s / mu`, add it to
the accumulator, run the fixed-step update loop, then render. -/
def process_frame (fd mu : Nat) (ft acc : Nat)
    (q : List PrioritizedEvent) :
    Except String (Nat × List PrioritizedEvent × Nat) :=
  let acc1 := acc + min ft (oneSecDivNs mu)
  let r := updateLoop fd acc1 q
  match render with
  | .error e => .error e
  | .ok () => .ok r

/-- Embeds `GameLoop::run` (core.rs lines 47-64) on a queue whose
senders have been dropped after enqueueing `q` (so the blocking `recv`
yields the queued events in order and then fails with disconnection,
ending the `while let`).  Per received event: a `Stop` carrying `High`
priority breaks the loop; anything else is processed as one frame via
`process_frame`, whose `update` calls drain later events from the same
queue.  `fts` lists the wall-clock gap fed to each successive
`process_frame` call (0 once exhausted).  Returns the trace of events
that triggered a frame, in order; `fuel` bounds the recursion and is
never exhausted when `fuel > q.length` (each step consumes at least the
received event). -/
def runLoopF (fd mu : Nat) :
    Nat → List Nat → Nat → List PrioritizedEvent →
    Option (Except String (List PrioritizedEvent))
  | 0, _, _, _ => none
  | _ + 1, _, _, [] => some (.ok [])
  | fuel + 1, fts, acc, e :: rest =>
    if e.event = GameEvent.Stop ∧ e.priority = Priority.High then
      some (.ok [])
    else
      match process_frame fd mu (fts.headD 0) acc rest with
      | .error err => some (.error err)
      | .ok r =>
        match runLoopF fd mu fuel fts.tail r.1 r.2.1 with
        | none => none
        | some (.error err) => some (.error err)
        | some (.ok tr) => some (.ok (e :: tr))

/-- `GameLoop::run` with just enough fuel: `q.length + 1` steps always
suffice (proved in `runLoopF_isSome`). -/
def runGameLoop (fd mu : Nat) (fts : List Nat) (acc : Nat)
    (q : List PrioritizedEvent) :
    Option (Except String (List PrioritizedEvent)) :=
  runLoopF fd mu (q.length + 1) fts acc q

/-- Embeds the forwarding thread of `Engine::subscribe` (lib.rs lines
39-45): every `PrioritizedEvent` received from the bus is re-sent as its
bare `GameEvent`, dropping the priority tag. -/
def engineSubscribeForward (q : List PrioritizedEvent) : List GameEvent :=
  q.map (fun pe => pe.event)

/-- Embeds the forwarding thread of the lib-level `GameLoop::run`
(lib.rs lines 102-115): every bare `GameEvent` received is re-tagged
with `event.default_priority()` and sent on to the core loop. -/
def libRunForward (es : List GameEvent) : List PrioritizedEvent :=
  es.map (fun e => ⟨e.default_priority, e⟩)

/-- The `PrioritizedEvent` that `publish_with_priority` builds from an
event and an optional explicit priority (events.rs lines 114-115). -/
def resolvePE (e : GameEvent) (p : Option Priority) : PrioritizedEvent :=
  ⟨p.getD e.default_priority, e⟩

/-- Publish a whole sequence of (event, optional explicit priority)
pairs on one topic, left to right. -/
def publishSeq (bus : EventBus) (t : String) :
    List (GameEvent × Option Priority) → EventBus
  | [] => bus
  | (e, p) :: rest => publishSeq (publish_with_priority bus t e p).1 t rest

/-- The subscriber vector currently registered for a topic (empty when
the topic has no entry). -/
def busSubs (bus : EventBus) (t : String) : List Subscriber :=
  (busLookup bus t).getD []

/-- The queue of the first subscriber of a topic (used to observe what
a single subscription receives). -/
def firstSubQueue (bus : EventBus) (t : String) : List PrioritizedEvent :=
  ((busSubs bus t).headD ⟨false, []⟩).queue

/-- Justification of `f64SigSixtieth`: `f64SigSixtieth / 2 ^ 58` is a
binary64 value (53-bit significand, since `2 ^ 52 ≤ m < 2 ^ 53`) and is
strictly the nearest one to `1 / 60`: the distance is
`4 / (60 * 2 ^ 58)`, strictly below the half-ulp `30 / (60 * 2 ^ 58)`,
so IEEE round-to-nearest division `1.0 / 60.0` yields exactly it. -/
theorem f64SigSixtieth_nearest :
    2 ^ 52 ≤ f64SigSixtieth ∧ f64SigSixtieth < 2 ^ 53 ∧
    60 * f64SigSixtieth + 4 = 2 ^ 58 ∧ 4 * 2 < 60 := by
  refine ⟨by decide, by decide, by decide, by decide⟩

/-- The frame duration for `target_fps = 60` is 16 666 667 ns: the
nearest nanosecond to the double `1.0 / 60.0` seconds. -/
theorem frameDurationNs60_eq : frameDurationNs60 = 16666667 := by decide

/-- The clamp bound for `max_updates = 60` is 16 666 666 ns
(truncating `Duration` division). -/
theorem oneSecDivNs_60_eq : oneSecDivNs 60 = 16666666 := by decide

/-- `update`'s drain never makes the queue longer. -/
theorem drainUpdate_length_le (q : List PrioritizedEvent) :
    (drainUpdate q).length ≤ q.length := by
  induction q with
  | nil => simp [drainUpdate]
  | cons e rest ih =>
    rw [drainUpdate]
    split
    · exact Nat.le_succ _
    · exact Nat.le_trans ih (Nat.le_succ _)

/-- The loop body never makes the queue longer, whatever the budget. -/
theorem updateLoopAux_queue_length_le (fd : Nat) :
    ∀ fuel acc q, ((updateLoopAux fd fuel acc q).2.1).length ≤ q.length := by
  intro fuel
  induction fuel with
  | zero => intro acc q; exact Nat.le_refl _
  | succ fuel ih =>
    intro acc q
    rw [updateLoopAux]
    split
    · exact Nat.le_trans (ih (acc - fd) (drainUpdate q)) (drainUpdate_length_le q)
    · exact Nat.le_refl _

/-- The fixed-step loop never makes the queue longer. -/
theorem updateLoop_queue_length_le (fd acc : Nat) (q : List PrioritizedEvent) :
    ((updateLoop fd acc q).2.1).length ≤ q.length :=
  updateLoopAux_queue_length_le fd (acc / fd) acc q

/-- With a budget of at least `acc / fd` iterations the loop body exits
only once the accumulator is below `fd`. -/
theorem updateLoopAux_acc_lt (fd : Nat) (hfd : 0 < fd) :
    ∀ fuel acc q, acc / fd ≤ fuel → (updateLoopAux fd fuel acc q).1 < fd := by
  intro fuel
  induction fuel with
  | zero =>
    intro acc q h
    have h0 : acc / fd = 0 := Nat.le_zero.mp h
    have hlt : acc < fd := by
      rcases Nat.lt_or_ge acc fd with hlt | hge
      · exact hlt
      · have h1 : 1 ≤ acc / fd := (Nat.one_le_div_iff hfd).mpr hge
        omega
    exact hlt
  | succ fuel ih =>
    intro acc q h
    rw [updateLoopAux]
    split
    · next hle =>
      apply ih
      have hrec : acc / fd = (acc - fd) / fd + 1 := by
        rw [Nat.div_eq acc fd, if_pos ⟨hfd, hle⟩]
      omega
    · next hle => exact Nat.lt_of_not_le hle

/-- On exit of the fixed-step loop the accumulator is below one frame
duration (the loop keeps running while `fd ≤ acc`). -/
theorem updateLoop_acc_lt (fd : Nat) (hfd : 0 < fd) (acc : Nat)
    (q : List PrioritizedEvent) : (updateLoop fd acc q).1 < fd :=
  updateLoopAux_acc_lt fd hfd (acc / fd) acc q (Nat.le_refl _)

/-- With a budget of at least `acc / fd` iterations the loop body calls
`update` exactly `⌊acc / fd⌋` times. -/
theorem updateLoopAux_count (fd : Nat) (hfd : 0 < fd) :
    ∀ fuel acc q, acc / fd ≤ fuel → (updateLoopAux fd fuel acc q).2.2 = acc / fd := by
  intro fuel
  induction fuel with
  | zero =>
    intro acc q h
    have h0 : acc / fd = 0 := Nat.le_zero.mp h
    simp [updateLoopAux, h0]
  | succ fuel ih =>
    intro acc q h
    rw [updateLoopAux]
    split
    · next hle =>
      have hrec : acc / fd = (acc - fd) / fd + 1 := by
        rw [Nat.div_eq acc fd, if_pos ⟨hfd, hle⟩]
      show (updateLoopAux fd fuel (acc - fd) (drainUpdate q)).2.2 + 1 = acc / fd
      rw [ih (acc - fd) (drainUpdate q) (by omega)]
      omega
    · next hle =>
      have hlt : acc < fd := Nat.lt_of_not_le hle
      simp [Nat.div_eq_of_lt hlt]

/-- The fixed-step loop calls `update` exactly `⌊acc / fd⌋` times. -/
theorem updateLoop_count (fd acc : Nat) (q : List PrioritizedEvent) :
    (updateLoop fd acc q).2.2 = acc / fd := by
  rcases Nat.eq_zero_or_pos fd with h0 | hpos
  · subst h0
    simp [updateLoop, updateLoopAux, Nat.div_zero]
  · exact updateLoopAux_count fd hpos (acc / fd) acc q (Nat.le_refl _)

/-- `updateLoop` satisfies the recurrence of the source's `while
accumulated_time >= frame_duration` loop: this certifies that the
`acc / fd` iteration budget in its definition is never exhausted early
when `0 < fd`. -/
theorem updateLoop_recurrence (fd acc : Nat) (q : List PrioritizedEvent)
    (hfd : 0 < fd) :
    updateLoop fd acc q
      = if fd ≤ acc then
          ((updateLoop fd (acc - fd) (drainUpdate q)).1,
           (updateLoop fd (acc - fd) (drainUpdate q)).2.1,
           (updateLoop fd (acc - fd) (drainUpdate q)).2.2 + 1)
        else (acc, q, 0) := by
  by_cases hle : fd ≤ acc
  · rw [if_pos hle]
    show updateLoopAux fd (acc / fd) acc q = _
    have hrec : acc / fd = (acc - fd) / fd + 1 := by
      rw [Nat.div_eq acc fd, if_pos ⟨hfd, hle⟩]
    rw [hrec, updateLoopAux, if_pos hle]
    rfl
  · rw [if_neg hle]
    show updateLoopAux fd (acc / fd) acc q = _
    rw [Nat.div_eq_of_lt (Nat.lt_of_not_le hle), updateLoopAux]

/-- `process_frame` always succeeds (render is a stub returning `Ok`)
and returns the result of the clamped accumulation followed by the
fixed-step loop. -/
theorem process_frame_ok (fd mu ft acc : Nat) (q : List PrioritizedEvent) :
    process_frame fd mu ft acc q
      = .ok (updateLoop fd (acc + min ft (oneSecDivNs mu)) q) := rfl

/-- With more fuel than queued events, `runLoopF` always terminates
with `Ok`: each iteration consumes at least the received event, frame
processing never errors (`render` is a stub), and exhausting the queue
ends the `while let` gracefully. -/
theorem runLoopF_ok (fd mu : Nat) :
    ∀ fuel fts acc q, q.length < fuel →
      ∃ tr, runLoopF fd mu fuel fts acc q = some (.ok tr) := by
  intro fuel
  induction fuel with
  | zero => intro fts acc q h; exact absurd h (Nat.not_lt_zero _)
  | succ fuel ih =>
    intro fts acc q h
    match q with
    | [] => exact ⟨[], rfl⟩
    | e :: rest =>
      rw [runLoopF]
      split
      · exact ⟨[], rfl⟩
      · rw [process_frame_ok]
        have hlen : ((updateLoop fd (acc + min (fts.headD 0) (oneSecDivNs mu))
            rest).2.1).length < fuel :=
          Nat.lt_of_le_of_lt (updateLoop_queue_length_le fd _ rest)
            (Nat.lt_of_succ_lt_succ h)
        obtain ⟨tr, htr⟩ := ih fts.tail
          (updateLoop fd (acc + min (fts.headD 0) (oneSecDivNs mu)) rest).1
          (updateLoop fd (acc + min (fts.headD 0) (oneSecDivNs mu)) rest).2.1
          hlen
        refine ⟨e :: tr, ?_⟩
        dsimp only
        rw [htr]

/-- Writing a topic's current subscriber vector back unchanged leaves
the registry unchanged. -/
theorem busUpdate_self (t : String) :
    ∀ (bus : EventBus) v, busLookup bus t = some v → busUpdate bus t v = bus := by
  intro bus
  induction bus with
  | nil => intro v h; cases h
  | cons kv rest ih =>
    intro v h
    match kv with
    | (k, w) =>
      rw [busLookup] at h
      rw [busUpdate]
      by_cases hk : k = t
      · rw [if_pos hk] at h
        rw [if_pos hk]
        cases h
        rfl
      · rw [if_neg hk] at h
        rw [if_neg hk, ih v h]

/-- Publishing on a topic with exactly one live subscriber appends the
resolved event to that subscriber's queue and succeeds. -/
theorem publish_oneSub (t : String) (e : GameEvent) (p : Option Priority)
    (sq : List PrioritizedEvent) :
    publish_with_priority [(t, [⟨false, sq⟩])] t e p
      = ([(t, [⟨false, sq ++ [resolvePE e p]⟩])], false) := by
  simp [publish_with_priority, busLookup, busUpdate, sendAll, resolvePE]

/-- Publishing a sequence on a topic with exactly one live subscriber
appends the resolved events, in order, to that subscriber's queue. -/
theorem publishSeq_oneSub (t : String) :
    ∀ (ps : List (GameEvent × Option Priority)) (sq : List PrioritizedEvent),
      publishSeq [(t, [⟨false, sq⟩])] t ps
        = [(t, [⟨false, sq ++ ps.map (fun x => resolvePE x.1 x.2)⟩])] := by
  intro ps
  induction ps with
  | nil => intro sq; simp [publishSeq]
  | cons x rest ih =>
    intro sq
    match x with
    | (e, p) =>
      rw [publishSeq, publish_oneSub, ih (sq ++ [resolvePE e p])]
      simp

/-- The fan-out of a publish stops at the first closed subscriber (in
registration order): subscribers before it get the event appended,
the closed one and every later subscriber are untouched, and the send
error is propagated. -/
theorem sendAll_stops_at_closed (pe : PrioritizedEvent) :
    ∀ (pre : List Subscriber) (s : Subscriber) (post : List Subscriber),
      (∀ x ∈ pre, x.closed = false) → s.closed = true →
      sendAll pe (pre ++ s :: post)
        = (pre.map (fun x => ⟨x.closed, x.queue ++ [pe]⟩) ++ s :: post, true) := by
  intro pre
  induction pre with
  | nil =>
    intro s post hpre hs
    simp [sendAll, hs]
  | cons x xs ih =>
    intro s post hpre hs
    have hx : x.closed = false := hpre x (List.mem_cons_self x xs)
    rw [List.cons_append, sendAll, hx]
    rw [ih s post (fun y hy => hpre y (List.mem_cons_of_mem x hy)) hs]
    simp [hx]

/-- Claim C1 (counterexample): with topic "t" holding subscriber A
(closed, registered first) and subscriber B (live, registered second),
`publish_with_priority` returns an error and leaves the registry —
including B's queue — unchanged: the event is NOT enqueued on B's
queue, and the `?` on the failing send fails the whole publish call,
contrary to the claim that one dead subscriber never prevents delivery
to the others. -/
theorem C1_counterexample :
    publish_with_priority [("t", [⟨true, []⟩, ⟨false, []⟩])] "t"
        GameEvent.Start none
      = ([("t", [⟨true, []⟩, ⟨false, []⟩])], true)
    ∧ ([] : List PrioritizedEvent)
        ≠ [⟨Priority.High, GameEvent.Start⟩] := by
  exact ⟨rfl, by decide⟩

/-- Claim C1 (amended): when a publish meets a closed subscriber queue,
delivery stops at the first closed subscriber in registration order:
subscribers registered before it receive the event, the closed one and
all subscribers after it (live or not) receive nothing, and the call
returns the send error of that first closed subscriber. -/
theorem C1_amended (t : String) (e : GameEvent) (p : Option Priority)
    (pre post : List Subscriber) (s : Subscriber)
    (hpre : ∀ x ∈ pre, x.closed = false) (hs : s.closed = true) :
    publish_with_priority [(t, pre ++ s :: post)] t e p
      = ([(t, (pre.map fun x => ⟨x.closed, x.queue ++ [resolvePE e p]⟩)
            ++ s :: post)], true) := by
  unfold publish_with_priority
  rw [show busLookup [(t, pre ++ s :: post)] t = some (pre ++ s :: post) from
    by simp [busLookup]]
  dsimp only
  rw [sendAll_stops_at_closed _ pre s post hpre hs]
  simp [busUpdate, resolvePE]

/-- Witness for C1_amended at a concrete bus: live, closed, live. -/
theorem C1_amended_witness :
    publish_with_priority [("t", [⟨false, []⟩, ⟨true, []⟩, ⟨false, []⟩])] "t"
        GameEvent.Start none
      = ([("t", [⟨false, [⟨Priority.High, GameEvent.Start⟩]⟩, ⟨true, []⟩,
          ⟨false, []⟩])], true) :=
  C1_amended "t" GameEvent.Start none [⟨false, []⟩] [⟨false, []⟩] ⟨true, []⟩
    (by decide) rfl

/-- Claim C2 (code bug, evaluation at the failing input): with the
default config (frame duration 16 666 667 ns, `max_updates = 60`), an
empty accumulator, 1-second wall-clock gaps, and the queue
`[Normal Update, Normal Update, High Stop, Low Log]` followed by sender
disconnection, `run` receives the first Update (frame 1 accrues only
the clamped 16 666 666 ns, no update call), receives the second Update
(frame 2 reaches 33 333 332 ns and calls `update`, whose drain consumes
the High Stop and merely returns Ok — `run` is never signalled), then
receives the trailing Low Log and processes a frame for it, ending only
at queue disconnection.  The frame trace is
`[Update, Update, Log]`: the Low Log IS processed, contradicting the
claim (and the source's own "shutting down game loop" log message at
core.rs line 101) that `run` terminates at the Stop drained by
`update`. -/
theorem C2_code_bug_eval :
    runGameLoop frameDurationNs60 60
      [nanosPerSec, nanosPerSec, nanosPerSec, nanosPerSec] 0
      [⟨.Normal, .Update 0.016⟩, ⟨.Normal, .Update 0.016⟩,
       ⟨.High, .Stop⟩, ⟨.Low, .Log "low" .Info⟩]
      = some (.ok [⟨.Normal, .Update 0.016⟩, ⟨.Normal, .Update 0.016⟩,
          ⟨.Low, .Log "low" .Info⟩]) := rfl

/-- Claim C3: one `process_frame` call adds exactly
`min ft (1s / max_updates)` to the accumulator and runs the fixed-step
update loop on the result; with `max_updates = 60`, `target_fps = 60`
and an empty accumulator, a single stalled frame of 5 seconds triggers
at most one update invocation (in exact nanosecond arithmetic it
triggers zero, because the clamp 16 666 666 ns is one nanosecond short
of the frame duration 16 666 667 ns), never ~300. -/
theorem C3_spiral_guard (ft acc : Nat) (q : List PrioritizedEvent) :
    process_frame frameDurationNs60 60 ft acc q
      = .ok (updateLoop frameDurationNs60 (acc + min ft (oneSecDivNs 60)) q)
    ∧ (updateLoop frameDurationNs60
        (0 + min (5 * nanosPerSec) (oneSecDivNs 60)) q).2.2 ≤ 1 := by
  refine ⟨process_frame_ok _ _ _ _ _, ?_⟩
  rw [updateLoop_count]
  decide

/-- Claim C4 (counterexample): under the derived order of `Priority`,
`High` does NOT compare greater than `Normal` — the derived `Ord` on a
Rust enum follows declaration order, and `High` is declared first. -/
theorem C4_counterexample :
    Priority.cmp Priority.High Priority.Normal ≠ Ordering.gt := by decide

/-- Claim C4 (amended): the derived order on `Priority` follows the
declaration order `High < Normal < Low`: `High` compares less than
`Normal`, `Normal` less than `Low`, and `High` less than `Low` (so
`High` is the minimum, the opposite of the spec's `High > Normal >
Low`). -/
theorem C4_amended :
    Priority.cmp Priority.High Priority.Normal = Ordering.lt
    ∧ Priority.cmp Priority.Normal Priority.Low = Ordering.lt
    ∧ Priority.cmp Priority.High Priority.Low = Ordering.lt := by decide

/-- Claim C5 (counterexample): with `target_fps = 60` and a 50 ms
wall-clock gap on an empty accumulator, `process_frame` performs 0
update invocations — not the claimed exactly 3 — because the gap's
contribution is clamped to `1s / max_updates` = 16 666 666 ns, which is
below the frame duration of 16 666 667 ns. -/
theorem C5_counterexample :
    process_frame frameDurationNs60 60 50000000 0 [] = .ok (16666666, [], 0)
    ∧ (0 : Nat) ≠ 3 := ⟨rfl, by decide⟩

/-- Claim C5 (amended): the 50 ms gap never reaches the accumulator
whole — the clamp `min(50ms, 1s/60) = 16 666 666 ns` applies and is
strictly below the frame duration 16 666 667 ns, so from an empty
accumulator that frame's processing performs zero update invocations
(not 3: the clamp makes `floor(50ms / 16.6ms) = 3` unreachable). -/
theorem C5_amended (q : List PrioritizedEvent) :
    min 50000000 (oneSecDivNs 60) = oneSecDivNs 60
    ∧ oneSecDivNs 60 < frameDurationNs60
    ∧ (updateLoop frameDurationNs60 (0 + min 50000000 (oneSecDivNs 60)) q).2.2
        = 0 := by
  refine ⟨by decide, by decide, ?_⟩
  rw [updateLoop_count]
  decide

/-- Claim C6: an event published without an explicit priority is
delivered carrying its variant's default priority (Start, Stop, Pause,
Resume → High; Update, TurnStart, TurnEnd, UnitMove → Normal; Log,
Stats → Low), an event published with an explicit priority carries
exactly that priority, a `Stop` published with no explicit priority
arrives High, and an `Update{delta: 0.016}` published with no explicit
priority arrives Normal with its payload intact. -/
theorem C6_default_priority_resolution :
    (GameEvent.Start.default_priority = Priority.High
      ∧ GameEvent.Stop.default_priority = Priority.High
      ∧ GameEvent.Pause.default_priority = Priority.High
      ∧ GameEvent.Resume.default_priority = Priority.High
      ∧ (∀ d, (GameEvent.Update d).default_priority = Priority.Normal)
      ∧ (∀ i, (GameEvent.TurnStart i).default_priority = Priority.Normal)
      ∧ (∀ i, (GameEvent.TurnEnd i).default_priority = Priority.Normal)
      ∧ (∀ u pos, (GameEvent.UnitMove u pos).default_priority = Priority.Normal)
      ∧ (∀ m l, (GameEvent.Log m l).default_priority = Priority.Low)
      ∧ (∀ m v, (GameEvent.Stats m v).default_priority = Priority.Low))
    ∧ (∀ t e sq, publish_with_priority [(t, [⟨false, sq⟩])] t e none
        = ([(t, [⟨false, sq ++ [⟨e.default_priority, e⟩]⟩])], false))
    ∧ (∀ t e p sq, publish_with_priority [(t, [⟨false, sq⟩])] t e (some p)
        = ([(t, [⟨false, sq ++ [⟨p, e⟩]⟩])], false))
    ∧ publish_with_priority [("t", [⟨false, []⟩])] "t" GameEvent.Stop none
        = ([("t", [⟨false, [⟨Priority.High, GameEvent.Stop⟩]⟩])], false)
    ∧ publish [("t", [⟨false, []⟩])] "t" (GameEvent.Update 0.016)
        = ([("t", [⟨false, [⟨Priority.Normal, GameEvent.Update 0.016⟩]⟩])],
           false) := by
  refine ⟨⟨rfl, rfl, rfl, rfl, fun d => rfl, fun i => rfl, fun i => rfl,
    fun u pos => rfl, fun m l => rfl, fun m v => rfl⟩, ?_, ?_, rfl, rfl⟩
  · intro t e sq
    have h := publish_oneSub t e none sq
    simpa [resolvePE] using h
  · intro t e p sq
    have h := publish_oneSub t e (some p) sq
    simpa [resolvePE] using h

/-- Claim C7: however the queue was filled, once its senders are gone
`run` consumes the queued events and the blocking receive's
disconnection ends the loop with `Ok` — a closed queue is graceful,
non-error termination, for every configuration, frame-time schedule,
initial accumulator and queue content. -/
theorem C7_closed_queue_graceful (fd mu : Nat) (fts : List Nat) (acc : Nat)
    (q : List PrioritizedEvent) :
    ∃ tr, runGameLoop fd mu fts acc q = some (.ok tr) :=
  runLoopF_ok fd mu (q.length + 1) fts acc q (Nat.lt_succ_self _)

/-- Claim C8: publishing any event at any priority on a topic with zero
current subscribers succeeds and leaves the registry untouched — the
event is silently discarded. -/
theorem C8_empty_topic_discard (bus : EventBus) (t : String) (e : GameEvent)
    (p : Option Priority) (h : busSubs bus t = []) :
    publish_with_priority bus t e p = (bus, false) := by
  cases hl : busLookup bus t with
  | none => simp [publish_with_priority, hl]
  | some subs =>
    have hsubs : subs = [] := by simpa [busSubs, hl] using h
    subst hsubs
    simp [publish_with_priority, hl, sendAll, busUpdate_self t bus [] hl]

/-- Witness for C8 at a concrete bus whose only entry is another
topic. -/
theorem C8_empty_topic_witness :
    publish_with_priority [("u", [⟨false, []⟩])] "t" GameEvent.Start none
      = ([("u", [⟨false, []⟩])], false) :=
  C8_empty_topic_discard [("u", [⟨false, []⟩])] "t" GameEvent.Start none rfl

/-- Claim C9: whenever `process_frame` returns successfully (and the
frame duration is positive, as `LoopConfig` guarantees), the residual
accumulated time carried to the next frame is strictly below one fixed
step. -/
theorem C9_accumulator_invariant (fd mu ft acc : Nat)
    (q : List PrioritizedEvent) (r : Nat × List PrioritizedEvent × Nat)
    (hfd : 0 < fd) (h : process_frame fd mu ft acc q = .ok r) : r.1 < fd := by
  rw [process_frame_ok] at h
  injection h with h
  subst h
  exact updateLoop_acc_lt fd hfd _ _

/-- Witness for C9 at the default 60 fps configuration, a 5-second
frame gap and an empty queue. -/
theorem C9_witness : (16666666 : Nat) < frameDurationNs60 :=
  C9_accumulator_invariant frameDurationNs60 60 (5 * nanosPerSec) 0 []
    (16666666, [], 0) (by decide)
    (rfl :
      process_frame frameDurationNs60 60 (5 * nanosPerSec) 0 []
        = Except.ok (16666666, [], 0))

/-- Claim C10: the plain-event path erases publish-time priority
overrides — two publish sequences on a fresh one-subscriber topic that
differ only in their explicit priorities yield identical event streams
through `Engine::subscribe`'s forwarding thread — and the lib-level
`GameLoop::run` wrapper re-tags every forwarded event with its default
priority, so the core loop behind the plain path never observes a
non-default priority. -/
theorem C10_plain_path_erasure (t : String)
    (ps qs : List (GameEvent × Option Priority))
    (h : ps.map Prod.fst = qs.map Prod.fst) :
    engineSubscribeForward (firstSubQueue (publishSeq (subscribe [] t) t ps) t)
      = engineSubscribeForward
          (firstSubQueue (publishSeq (subscribe [] t) t qs) t)
    ∧ ∀ es, ∀ pe ∈ libRunForward es,
        pe.priority = pe.event.default_priority := by
  constructor
  · have hsub : subscribe [] t = [(t, [⟨false, []⟩])] := by
      simp [subscribe, busLookup]
    have key : ∀ xs : List (GameEvent × Option Priority),
        engineSubscribeForward
            (firstSubQueue (publishSeq (subscribe [] t) t xs) t)
          = xs.map Prod.fst := by
      intro xs
      rw [hsub, publishSeq_oneSub t xs []]
      simp [firstSubQueue, busSubs, busLookup, engineSubscribeForward,
        resolvePE, List.map_map, Function.comp_def]
    rw [key ps, key qs, h]
  · intro es pe hpe
    simp only [libRunForward, List.mem_map] at hpe
    obtain ⟨e, _, rfl⟩ := hpe
    rfl

/-- Witness for C10: the same Update published once with an explicit
High override and once with no explicit priority produces the same
plain stream. -/
theorem C10_witness :
    engineSubscribeForward (firstSubQueue
        (publishSeq (subscribe [] "t") "t"
          [(GameEvent.Update 0.016, some Priority.High)]) "t")
      = engineSubscribeForward (firstSubQueue
        (publishSeq (subscribe [] "t") "t"
          [(GameEvent.Update 0.016, none)]) "t")
    ∧ ∀ es, ∀ pe ∈ libRunForward es,
        pe.priority = pe.event.default_priority :=
  C10_plain_path_erasure "t" _ _ rfl
